import Mathlib

/-!
Shallow embedding of the `src-tree` C-header scaffolding generator.

The repository contains two self-contained variants of the generator:
the newer one in `src/main.go` and an older one in `src/unnamed/part_000`.
Strings are modelled as Lean `String`; the byte-level guard-token
normalization loops (`defName` in both variants) iterate over the ASCII
byte values of the qualified include path, modelled here as `List Nat`
of byte values (exact for the ASCII inputs this tool handles).
-/

/-- Byte value of the qualified include path; all inputs are ASCII. -/
def strBytes (s : String) : List Nat := s.data.map Char.toNat

/-- Rebuild a string from a list of ASCII byte values. -/
def strOfBytes (l : List Nat) : String := ⟨l.map Char.ofNat⟩

/-- Constant `byteUp = 'a' - 'A'` from both variants (main.go line 15). -/
def byteUp : Nat := 97 - 65

/-- Loop body of `defName` in the newer variant (src/main.go lines 154-165):
digits and uppercase letters pass through, lowercase letters are upper-cased,
every other byte becomes an underscore; `r` is the accumulator that starts
as the two leading underscores. -/
def defLoopNew (r : List Nat) : List Nat → List Nat
  | [] => r
  | b :: bs =>
    if 48 ≤ b ∧ b ≤ 57 then defLoopNew (r ++ [b]) bs
    else if 65 ≤ b ∧ b ≤ 90 then defLoopNew (r ++ [b]) bs
    else if 97 ≤ b ∧ b ≤ 122 then defLoopNew (r ++ [b - byteUp]) bs
    else defLoopNew (r ++ [95]) bs

/-- Loop body of `defName` in the older variant (src/unnamed/part_000 lines
120-129): uppercase letters pass through, lowercase letters are upper-cased,
every other byte (including digits) becomes an underscore. -/
def defLoopOld (r : List Nat) : List Nat → List Nat
  | [] => r
  | b :: bs =>
    if 65 ≤ b ∧ b ≤ 90 then defLoopOld (r ++ [b]) bs
    else if 97 ≤ b ∧ b ≤ 122 then defLoopOld (r ++ [b - byteUp]) bs
    else defLoopOld (r ++ [95]) bs

/-- Byte-level `includeName` (both variants): if a module name is set the
logical filename is qualified as `name/filename`, else it is the bare name. -/
def includeNameBytes (nameB inameB : List Nat) : List Nat :=
  if nameB = [] then inameB else nameB ++ [47] ++ inameB

/-- Guard token of the newer variant's `defName` (src/main.go lines 150-168):
two leading underscores, the normalized qualified include path, two trailing
underscores. -/
def defNameBytes (nameB inameB : List Nat) : List Nat :=
  defLoopNew [95, 95] (includeNameBytes nameB inameB) ++ [95, 95]

/-- Guard token of the older variant's `defName` (src/unnamed/part_000 lines
116-132). -/
def defNameBytesOld (nameB inameB : List Nat) : List Nat :=
  defLoopOld [95, 95] (includeNameBytes nameB inameB) ++ [95, 95]

/-- Per-byte rule of the newer variant's normalization loop. -/
def normByteNew (b : Nat) : Nat :=
  if 48 ≤ b ∧ b ≤ 57 then b
  else if 65 ≤ b ∧ b ≤ 90 then b
  else if 97 ≤ b ∧ b ≤ 122 then b - byteUp
  else 95

/-- Per-byte rule of the older variant's normalization loop. -/
def normByteOld (b : Nat) : Nat :=
  if 65 ≤ b ∧ b ≤ 90 then b
  else if 97 ≤ b ∧ b ≤ 122 then b - byteUp
  else 95

theorem defLoopNew_eq_map (bs : List Nat) : ∀ r : List Nat,
    defLoopNew r bs = r ++ bs.map normByteNew := by
  induction bs with
  | nil => intro r; simp [defLoopNew]
  | cons b bs ih =>
    intro r
    by_cases h1 : 48 ≤ b ∧ b ≤ 57
    · simp [defLoopNew, normByteNew, h1, ih]
    · by_cases h2 : 65 ≤ b ∧ b ≤ 90
      · simp [defLoopNew, normByteNew, h1, h2, ih]
      · by_cases h3 : 97 ≤ b ∧ b ≤ 122
        · simp [defLoopNew, normByteNew, h1, h2, h3, ih]
        · simp [defLoopNew, normByteNew, h1, h2, h3, ih]

theorem defLoopOld_eq_map (bs : List Nat) : ∀ r : List Nat,
    defLoopOld r bs = r ++ bs.map normByteOld := by
  induction bs with
  | nil => intro r; simp [defLoopOld]
  | cons b bs ih =>
    intro r
    by_cases h1 : 65 ≤ b ∧ b ≤ 90
    · simp [defLoopOld, normByteOld, h1, ih]
    · by_cases h2 : 97 ≤ b ∧ b ≤ 122
      · simp [defLoopOld, normByteOld, h1, h2, ih]
      · simp [defLoopOld, normByteOld, h1, h2, ih]

/-- C6: for every input byte of the qualified include path, the newer
variant's guard normalization passes decimal digits and uppercase letters
through, upper-cases lowercase letters and replaces every other byte with
an underscore, while the older variant additionally replaces digits with an
underscore; each variant applies its rule uniformly to every byte, between
the two leading and two trailing underscores. -/
theorem c6_guard_normalization_rules (nameB inameB : List Nat) :
    defNameBytes nameB inameB =
      [95, 95] ++ (includeNameBytes nameB inameB).map (fun b =>
        if 48 ≤ b ∧ b ≤ 57 then b
        else if 65 ≤ b ∧ b ≤ 90 then b
        else if 97 ≤ b ∧ b ≤ 122 then b - byteUp
        else 95) ++ [95, 95] ∧
    defNameBytesOld nameB inameB =
      [95, 95] ++ (includeNameBytes nameB inameB).map (fun b =>
        if 48 ≤ b ∧ b ≤ 57 then 95
        else if 65 ≤ b ∧ b ≤ 90 then b
        else if 97 ≤ b ∧ b ≤ 122 then b - byteUp
        else 95) ++ [95, 95] := by
  constructor
  · rw [defNameBytes, defLoopNew_eq_map]
    rfl
  · rw [defNameBytesOld, defLoopOld_eq_map]
    congr 2
    apply List.map_congr_left
    intro b _
    by_cases h1 : 48 ≤ b ∧ b ≤ 57
    · have h2 : ¬(65 ≤ b ∧ b ≤ 90) := by omega
      have h3 : ¬(97 ≤ b ∧ b ≤ 122) := by omega
      simp [normByteOld, h1, h2, h3]
    · simp [normByteOld, h1]

/-- ASCII letter byte. -/
def isAsciiLetter (b : Nat) : Prop := (65 ≤ b ∧ b ≤ 90) ∨ (97 ≤ b ∧ b ≤ 122)

/-- ASCII letter or decimal digit byte. -/
def isAsciiAlnum (b : Nat) : Prop := isAsciiLetter b ∨ (48 ≤ b ∧ b ≤ 57)

instance (b : Nat) : Decidable (isAsciiLetter b) := by
  unfold isAsciiLetter; infer_instance

instance (b : Nat) : Decidable (isAsciiAlnum b) := by
  unfold isAsciiAlnum; infer_instance

/-- A valid module name: non-empty, ASCII alphanumeric, starting with a
letter (the shape usable as a C-identifier prefix). -/
def validModuleName (nb : List Nat) : Prop :=
  match nb with
  | [] => False
  | b :: bs => isAsciiLetter b ∧ ∀ x ∈ bs, isAsciiAlnum x

instance : (nb : List Nat) → Decidable (validModuleName nb)
  | [] => isFalse (fun h => h)
  | b :: bs => inferInstanceAs (Decidable (isAsciiLetter b ∧ ∀ x ∈ bs, isAsciiAlnum x))

theorem normByteNew_not_lower (b : Nat) :
    ¬(97 ≤ normByteNew b ∧ normByteNew b ≤ 122) := by
  unfold normByteNew byteUp
  split
  · omega
  · split
    · omega
    · split <;> omega

theorem normByteOld_not_lower (b : Nat) :
    ¬(97 ≤ normByteOld b ∧ normByteOld b ≤ 122) := by
  unfold normByteOld byteUp
  split
  · omega
  · split <;> omega

theorem normByteNew_letter (b : Nat) (h : isAsciiLetter b) :
    normByteNew b ≠ 95 ∧ normByteNew b = normByteOld b := by
  rcases h with h | h
  · have h1 : ¬(48 ≤ b ∧ b ≤ 57) := by omega
    simp only [normByteNew, normByteOld, if_neg h1, if_pos h]
    exact ⟨by omega, trivial⟩
  · have h1 : ¬(48 ≤ b ∧ b ≤ 57) := by omega
    have h2 : ¬(65 ≤ b ∧ b ≤ 90) := by omega
    simp only [normByteNew, normByteOld, byteUp, if_neg h1, if_neg h2, if_pos h]
    exact ⟨by omega, trivial⟩

/-- C4: for every valid module name `N`, the guard token derived (in either
variant) for the logical name `consts.h` — the normalization of the
qualified include path `N/consts.h` — contains no lowercase letters and has
exactly two leading and exactly two trailing underscores (the third byte
from either end is not an underscore).  Reproducibility is inherent: the
derivation is a pure function of its input. -/
theorem c4_guard_token_shape (nb : List Nat) (h : validModuleName nb) :
    (∀ b ∈ defNameBytes nb (strBytes "consts.h"), ¬(97 ≤ b ∧ b ≤ 122)) ∧
    (defNameBytes nb (strBytes "consts.h")).take 2 = [95, 95] ∧
    (defNameBytes nb (strBytes "consts.h")).get? 2 ≠ some 95 ∧
    (defNameBytes nb (strBytes "consts.h")).reverse.take 2 = [95, 95] ∧
    (defNameBytes nb (strBytes "consts.h")).reverse.get? 2 ≠ some 95 ∧
    (∀ b ∈ defNameBytesOld nb (strBytes "consts.h"), ¬(97 ≤ b ∧ b ≤ 122)) ∧
    (defNameBytesOld nb (strBytes "consts.h")).take 2 = [95, 95] ∧
    (defNameBytesOld nb (strBytes "consts.h")).get? 2 ≠ some 95 ∧
    (defNameBytesOld nb (strBytes "consts.h")).reverse.take 2 = [95, 95] ∧
    (defNameBytesOld nb (strBytes "consts.h")).reverse.get? 2 ≠ some 95 := by
  obtain ⟨b0, rest, rfl⟩ : ∃ b0 rest, nb = b0 :: rest := by
    cases nb with
    | nil => exact absurd h (by simp [validModuleName])
    | cons a l => exact ⟨a, l, rfl⟩
  obtain ⟨hb0, hrest⟩ := h
  have hne : b0 :: rest ≠ ([] : List Nat) := by simp
  have hcb : strBytes "consts.h" = [99, 111, 110, 115, 116, 115, 46, 104] := by
    decide
  have hK1 : List.map normByteNew [47] = [95] := by decide
  have hK2 : List.map normByteNew [99, 111, 110, 115, 116, 115, 46, 104]
      = [67, 79, 78, 83, 84, 83, 95, 72] := by decide
  have hK1o : List.map normByteOld [47] = [95] := by decide
  have hK2o : List.map normByteOld [99, 111, 110, 115, 116, 115, 46, 104]
      = [67, 79, 78, 83, 84, 83, 95, 72] := by decide
  have hnew : defNameBytes (b0 :: rest) (strBytes "consts.h") =
      95 :: 95 :: normByteNew b0 ::
        (rest.map normByteNew ++ [95, 67, 79, 78, 83, 84, 83, 95, 72, 95, 95]) := by
    rw [defNameBytes, defLoopNew_eq_map, includeNameBytes, if_neg hne, hcb,
      List.map_append, List.map_append, hK1, hK2]
    simp
  have hold : defNameBytesOld (b0 :: rest) (strBytes "consts.h") =
      95 :: 95 :: normByteOld b0 ::
        (rest.map normByteOld ++ [95, 67, 79, 78, 83, 84, 83, 95, 72, 95, 95]) := by
    rw [defNameBytesOld, defLoopOld_eq_map, includeNameBytes, if_neg hne, hcb,
      List.map_append, List.map_append, hK1o, hK2o]
    simp
  have hnewr : (defNameBytes (b0 :: rest) (strBytes "consts.h")).reverse =
      95 :: 95 :: 72 :: ([95, 83, 84, 83, 78, 79, 67, 95] ++
        ((rest.map normByteNew).reverse ++ [normByteNew b0, 95, 95])) := by
    rw [hnew]; simp
  have holdr : (defNameBytesOld (b0 :: rest) (strBytes "consts.h")).reverse =
      95 :: 95 :: 72 :: ([95, 83, 84, 83, 78, 79, 67, 95] ++
        ((rest.map normByteOld).reverse ++ [normByteOld b0, 95, 95])) := by
    rw [hold]; simp
  have hlet := normByteNew_letter b0 hb0
  refine ⟨?_, ?_, ?_, ?_, ?_, ?_, ?_, ?_, ?_, ?_⟩
  · rw [hnew]
    intro b hb
    simp only [List.mem_cons, List.mem_append, List.mem_map] at hb
    rcases hb with rfl | rfl | rfl | ⟨x, _, rfl⟩ | hb
    · omega
    · omega
    · exact normByteNew_not_lower b0
    · exact normByteNew_not_lower x
    · simp only [List.mem_cons, List.not_mem_nil, or_false] at hb
      rcases hb with rfl | rfl | rfl | rfl | rfl | rfl | rfl | rfl | rfl | rfl | rfl
        <;> omega
  · rw [hnew]; rfl
  · rw [hnew]
    simp only [List.get?, ne_eq, Option.some.injEq]
    exact hlet.1
  · rw [hnewr]; rfl
  · rw [hnewr]
    simp
  · rw [hold]
    intro b hb
    simp only [List.mem_cons, List.mem_append, List.mem_map] at hb
    rcases hb with rfl | rfl | rfl | ⟨x, _, rfl⟩ | hb
    · omega
    · omega
    · exact normByteOld_not_lower b0
    · exact normByteOld_not_lower x
    · simp only [List.mem_cons, List.not_mem_nil, or_false] at hb
      rcases hb with rfl | rfl | rfl | rfl | rfl | rfl | rfl | rfl | rfl | rfl | rfl
        <;> omega
  · rw [hold]; rfl
  · rw [hold]
    simp only [List.get?, ne_eq, Option.some.injEq]
    rw [← hlet.2]
    exact hlet.1
  · rw [holdr]; rfl
  · rw [holdr]
    simp

/-- Witness for the guard-token shape theorem at the concrete module name
`foo` (bytes 102, 111, 111). -/
theorem c4_guard_token_shape_witness :
    (defNameBytes [102, 111, 111] (strBytes "consts.h")).take 2 = [95, 95] :=
  (c4_guard_token_shape [102, 111, 111] (by decide)).2.1

/-- includeName at the string level (src/main.go lines 170-175 and
src/unnamed/part_000 lines 134-139): with a module name the logical name is
qualified as `name/iname`. -/
def includeNameStr (nm iname : String) : String :=
  if nm.length = 0 then iname else nm ++ "/" ++ iname

/-- defName of the newer variant at the string level. -/
def defNameStr (nm iname : String) : String :=
  strOfBytes (defNameBytes (strBytes nm) (strBytes iname))

/-- defName of the older variant at the string level. -/
def defNameStrOld (nm iname : String) : String :=
  strOfBytes (defNameBytesOld (strBytes nm) (strBytes iname))

/-- Resolved configuration: the package-level variables of src/main.go as
they stand after checkFlags has run. -/
structure Config where
  name : String
  once : Bool
  pub : Bool
  pfx : String
  isPfxSet : Bool
deriving DecidableEq

/-- Raw CLI input to checkFlags: flag values, which flags were present on
the command line, and the base name of the working directory. -/
structure RawFlags where
  nameVal : String
  isNameSet : Bool
  isDirSet : Bool
  dirBase : String
  onceVal : Bool
  pubVal : Bool
  addVal : String
  isAddSet : Bool
deriving DecidableEq

/-- Fatal configuration errors of checkFlags (src/main.go lines 50-84). -/
inductive ConfigError
  | incompatibleFlags
  | emptyAdd
deriving DecidableEq

/-- checkFlags (src/main.go lines 50-84): name/dir are mutually exclusive,
a present -add flag must be non-empty, otherwise the prefix defaults to
`pub`; with -dir the module name is the working directory's base name. -/
def checkFlags (r : RawFlags) : Except ConfigError Config :=
  if r.isNameSet && r.isDirSet then .error .incompatibleFlags
  else if r.isAddSet && r.addVal.length == 0 then .error .emptyAdd
  else .ok
    { name := if r.isDirSet then r.dirBase else r.nameVal
      once := r.onceVal
      pub := r.pubVal
      pfx := if r.isAddSet then r.addVal else "pub"
      isPfxSet := r.isAddSet }

/-- File system: association list from resolved path to file content. -/
abbrev FS := List (String × String)

def fsGet : FS → String → Option String
  | [], _ => none
  | (q, w) :: fs, p => if q = p then some w else fsGet fs p

def fsSet : FS → String → String → FS
  | [], p, v => [(p, v)]
  | (q, w) :: fs, p, v => if q = p then (p, v) :: fs else (q, w) :: fsSet fs p v

/-- os.Remove of a path. -/
def fsRemove : FS → String → FS
  | [], _ => []
  | (q, w) :: fs, p => if q = p then fs else (q, w) :: fsRemove fs p

/-- Append to the content of an open file. -/
def fsAppend (fs : FS) (p s : String) : FS :=
  match fsGet fs p with
  | some old => fsSet fs p (old ++ s)
  | none => fs

/-- Open flags relevant to os.OpenFile as used here. -/
structure OpenFlags where
  rdwr : Bool
  wronly : Bool
  create : Bool
  excl : Bool
  trunc : Bool
deriving DecidableEq

/-- fileCreate of the newer variant (src/main.go line 14):
`O_WRONLY | O_CREATE | O_EXCL | O_TRUNC`. -/
def fileCreate : OpenFlags :=
  { rdwr := false, wronly := true, create := true, excl := true, trunc := true }

/-- fileCreate of the older variant (src/unnamed/part_000 line 14):
`O_RDWR | O_CREATE | O_TRUNC` — no O_EXCL. -/
def fileCreateOld : OpenFlags :=
  { rdwr := true, wronly := false, create := true, excl := false, trunc := true }

/-- File-system errors surfaced by the modelled system calls. -/
inductive FErr
  | alreadyExists
  | notExist
  | ioError
deriving DecidableEq

/-- ASCII lowering of one character (strings.ToLower on the ASCII names this
tool builds). -/
def lowerChar (c : Char) : Char :=
  if 65 ≤ c.toNat ∧ c.toNat ≤ 90 then Char.ofNat (c.toNat + byteUp) else c

def strToLower (s : String) : String := ⟨s.data.map lowerChar⟩

/-- filepath.Abs of the lower-cased name; the working-directory prefix is
constant within a run, so paths are modelled relative to it. -/
def resolvePath (fname : String) : String := strToLower fname

/-- os.OpenFile semantics for the flag combinations used here: with
O_CREATE|O_EXCL an existing file is an already-exists error; otherwise
O_TRUNC empties the existing file; a missing file is created empty. -/
def osOpenFile (fs : FS) (p : String) (fl : OpenFlags) : Except FErr FS :=
  match fsGet fs p with
  | some _ =>
    if fl.create && fl.excl then .error .alreadyExists
    else if fl.trunc then .ok (fsSet fs p "")
    else .ok fs
  | none =>
    if fl.create then .ok (fsSet fs p "") else .error .notExist

/-- createFile (src/main.go lines 198-208; the older variant's lines 162-172
differ only in the open flags passed in): resolve the lower-cased name to an
absolute path and open it with the given creation flags. -/
def createFile (fl : OpenFlags) (fs : FS) (fname : String) :
    Except FErr (FS × String) :=
  match osOpenFile fs (resolvePath fname) fl with
  | .error e => .error e
  | .ok fs1 => .ok (fs1, resolvePath fname)

/-- Writer state: the file system plus the count of write calls so far
(used to inject write faults deterministically). -/
structure WSt where
  fs : FS
  wc : Nat
deriving DecidableEq

/-- No injected write faults. -/
def noFaults : Nat → Bool := fun _ => false

/-- One write call on the open file at path `p`; `faults` tells which write
(counted per run) fails with an I/O error. -/
def writeStr (faults : Nat → Bool) (p s : String) (st : WSt) : WSt × Option FErr :=
  if faults st.wc then (st, some .ioError)
  else ({ fs := fsAppend st.fs p s, wc := st.wc + 1 }, none)

/-- Sequence two writer steps: the second runs only when the first
reported no error (the early-return-on-error pattern of the source). -/
def bindE (r : WSt × Option FErr) (f : WSt → WSt × Option FErr) :
    WSt × Option FErr :=
  match r with
  | (st, none) => f st
  | (st, some e) => (st, some e)

/-- writeHeader (src/main.go lines 177-186): optional `#pragma once` line
plus blank, then the `#ifndef`/`#define` guard lines plus blank. -/
def writeHeader (c : Config) (faults : Nat → Bool) (p iname : String)
    (st : WSt) : WSt × Option FErr :=
  bindE (if c.once then writeStr faults p "#pragma once\n\n" st else (st, none))
    (fun st1 => writeStr faults p
      ("#ifndef " ++ defNameStr c.name iname ++ "\n#define "
        ++ defNameStr c.name iname ++ "\n\n") st1)

/-- writeFooter (src/main.go lines 188-191). -/
def writeFooter (c : Config) (faults : Nat → Bool) (p iname : String)
    (st : WSt) : WSt × Option FErr :=
  writeStr faults p ("#endif //" ++ defNameStr c.name iname ++ "\n") st

/-- writeInclude (src/main.go lines 193-196): one include directive with the
module-qualified include path. -/
def writeInclude (c : Config) (faults : Nat → Bool) (p iname : String)
    (st : WSt) : WSt × Option FErr :=
  writeStr faults p ("#include \"" ++ includeNameStr c.name iname ++ "\"\n") st

/-- The include-writing loop shared by createNamedInc and createNamedSrc. -/
def writeIncs (c : Config) (faults : Nat → Bool) (p : String) :
    List String → WSt → WSt × Option FErr
  | [], st => (st, none)
  | i :: rest, st =>
    match writeInclude c faults p i st with
    | (st1, none) => writeIncs c faults p rest st1
    | (st1, some e) => (st1, some e)

/-- Body of createNamedInc after successful creation (src/main.go lines
224-239): header, one include line per dependency, a blank line when at
least one include was written, footer. -/
def incBody (c : Config) (faults : Nat → Bool) (p iname : String)
    (incs : List String) (st : WSt) : WSt × Option FErr :=
  bindE (writeHeader c faults p iname st) (fun st1 =>
    bindE (writeIncs c faults p incs st1) (fun st2 =>
      bindE (if incs.length > 0 then writeStr faults p "\n" st2 else (st2, none))
        (fun st3 => writeFooter c faults p iname st3)))

/-- The deferred cleanup of both createNamed functions: on error, the file
created at `fn` is removed before the error propagates. -/
def withCleanup (fn : String) (r : WSt × Option FErr) : WSt × Option FErr :=
  match r with
  | (st2, none) => (st2, none)
  | (st2, some e) => ({ fs := fsRemove st2.fs fn, wc := st2.wc }, some e)

/-- createNamedInc (src/main.go lines 210-241): exclusive creation, the
guarded body, and the deferred `os.Remove` of the file when any error
occurred after creation. -/
def createNamedInc (c : Config) (faults : Nat → Bool) (iname : String)
    (incs : List String) (st : WSt) : WSt × Option FErr :=
  match createFile fileCreate st.fs iname with
  | .error e => (st, some e)
  | .ok (fs1, fn) =>
    withCleanup fn (incBody c faults fn iname incs { fs := fs1, wc := st.wc })

/-- createNamedSrc (src/main.go lines 243-263): creation, then only the
include lines — no guard, no pragma — with the same deferred cleanup. -/
def createNamedSrc (c : Config) (faults : Nat → Bool) (sname : String)
    (incs : List String) (st : WSt) : WSt × Option FErr :=
  match createFile fileCreate st.fs sname with
  | .error e => (st, some e)
  | .ok (fs1, fn) =>
    withCleanup fn (writeIncs c faults fn incs { fs := fs1, wc := st.wc })

/-- writeHeader of the older variant (src/unnamed/part_000 lines 141-150):
identical shape, older guard normalization. -/
def writeHeaderOld (c : Config) (faults : Nat → Bool) (p iname : String)
    (st : WSt) : WSt × Option FErr :=
  bindE (if c.once then writeStr faults p "#pragma once\n\n" st else (st, none))
    (fun st1 => writeStr faults p
      ("#ifndef " ++ defNameStrOld c.name iname ++ "\n#define "
        ++ defNameStrOld c.name iname ++ "\n\n") st1)

/-- writeFooter of the older variant (src/unnamed/part_000 lines 152-155). -/
def writeFooterOld (c : Config) (faults : Nat → Bool) (p iname : String)
    (st : WSt) : WSt × Option FErr :=
  writeStr faults p ("#endif //" ++ defNameStrOld c.name iname ++ "\n") st

/-- Body of the older variant's createNamedInc (src/unnamed/part_000 lines
188-203). -/
def incBodyOld (c : Config) (faults : Nat → Bool) (p iname : String)
    (incs : List String) (st : WSt) : WSt × Option FErr :=
  bindE (writeHeaderOld c faults p iname st) (fun st1 =>
    bindE (writeIncs c faults p incs st1) (fun st2 =>
      bindE (if incs.length > 0 then writeStr faults p "\n" st2 else (st2, none))
        (fun st3 => writeFooterOld c faults p iname st3)))

/-- createNamedInc of the older variant (src/unnamed/part_000 lines 174-205):
the open flags lack O_EXCL, so an existing file is opened and truncated. -/
def createNamedIncOld (c : Config) (faults : Nat → Bool) (iname : String)
    (incs : List String) (st : WSt) : WSt × Option FErr :=
  match createFile fileCreateOld st.fs iname with
  | .error e => (st, some e)
  | .ok (fs1, fn) =>
    withCleanup fn (incBodyOld c faults fn iname incs { fs := fs1, wc := st.wc })

/-- createNamedSrc of the older variant (src/unnamed/part_000 lines
207-227). -/
def createNamedSrcOld (c : Config) (faults : Nat → Bool) (sname : String)
    (incs : List String) (st : WSt) : WSt × Option FErr :=
  match createFile fileCreateOld st.fs sname with
  | .error e => (st, some e)
  | .ok (fs1, fn) =>
    withCleanup fn (writeIncs c faults fn incs { fs := fs1, wc := st.wc })

/-- Filename-suffix constants of the newer variant (src/main.go 23-27). -/
def sConsts : String := "_consts.h"

def sTypes : String := "_types.h"

def sInlines : String := "_inlines.h"

def pPub : String := "pub"

def pPriv : String := "priv"

/-- fName (src/main.go lines 86-88): prefix plus suffix. -/
def fName (c : Config) (suf : String) : String := c.pfx ++ suf

/-- Kind of a generated file: include header or source template. -/
inductive FKind
  | inc
  | src
deriving DecidableEq

/-- One create call performed by main: kind, filename argument, and the
dependency names passed to the writer. -/
structure FileCall where
  kind : FKind
  fname : String
  incs : List String
deriving DecidableEq

/-- createIncs (src/main.go lines 90-108) as the ordered calls it makes;
on the second (non-first) tier the consts file carries the bridge include
`pub_inlines.h`. -/
def createIncsPlan (c : Config) (first : Bool) : List FileCall :=
  (if first then [⟨.inc, fName c sConsts, []⟩]
   else [⟨.inc, fName c sConsts, [pPub ++ sInlines]⟩]) ++
  [⟨.inc, fName c sTypes, [fName c sConsts]⟩,
   ⟨.inc, fName c sInlines, [fName c sTypes]⟩]

/-- The ordered sequence of create calls performed by main of the newer
variant (src/main.go lines 110-141), including the package-level prefix
switch to `priv` before the second tier. -/
def mainPlan (c : Config) : List FileCall :=
  createIncsPlan c true ++
  (if c.isPfxSet then
    [⟨.inc, c.pfx ++ ".h", [fName c sInlines]⟩,
     ⟨.src, c.pfx ++ ".c", [c.pfx ++ ".h"]⟩]
  else
    (if c.name.length > 0 then
      [⟨.inc, c.name ++ ".h", [fName c sInlines]⟩] else []) ++
    (if c.pub then [] else
      createIncsPlan { c with pfx := pPriv } false ++
      (if c.name.length > 0 then
        [⟨.src, c.name ++ ".c", [fName { c with pfx := pPriv } sInlines]⟩]
       else [])))

/-- The ordered sequence of create calls performed by main of the older
variant (src/unnamed/part_000 lines 72-107): a fixed eight-file pyramid,
plus export header and source template when a module name is known. -/
def mainPlanOld (nm : String) : List FileCall :=
  [⟨.inc, "pub_consts.h", []⟩,
   ⟨.inc, "pub_types.h", ["pub_consts.h"]⟩,
   ⟨.inc, "pub_inlines.h", ["pub_types.h"]⟩,
   ⟨.inc, "pub_includes.h", ["pub_inlines.h"]⟩,
   ⟨.inc, "priv_consts.h", ["pub_includes.h"]⟩,
   ⟨.inc, "priv_types.h", ["priv_consts.h"]⟩,
   ⟨.inc, "priv_inlines.h", ["priv_types.h"]⟩,
   ⟨.inc, "priv_includes.h", ["priv_inlines.h"]⟩] ++
  (if nm.length = 0 then [] else
    [⟨.inc, nm ++ ".h", ["pub_includes.h"]⟩,
     ⟨.src, nm ++ ".c", ["priv_includes.h"]⟩])

/-- Execute one planned call with the newer variant's writers. -/
def execCall (c : Config) (faults : Nat → Bool) (call : FileCall)
    (st : WSt) : WSt × Option FErr :=
  match call.kind with
  | .inc => createNamedInc c faults call.fname call.incs st
  | .src => createNamedSrc c faults call.fname call.incs st

/-- Run the planned calls in order; the first error aborts the run (logErr
exits the process, src/main.go lines 143-148). -/
def execPlan (c : Config) (faults : Nat → Bool) :
    List FileCall → WSt → WSt × Option FErr
  | [], st => (st, none)
  | call :: rest, st =>
    match execCall c faults call st with
    | (st1, none) => execPlan c faults rest st1
    | (st1, some e) => (st1, some e)

/-- An error of a whole run: configuration resolution or file handling. -/
inductive RunErr
  | config (e : ConfigError)
  | file (e : FErr)
deriving DecidableEq

/-- A whole run of the newer variant: checkFlags, then the main plan. -/
def runMain (r : RawFlags) (faults : Nat → Bool) (st : WSt) :
    WSt × Option RunErr :=
  match checkFlags r with
  | .error e => (st, some (.config e))
  | .ok c =>
    match execPlan c faults (mainPlan c) st with
    | (st1, none) => (st1, none)
    | (st1, some e) => (st1, some (.file e))

/-- Raw flags of a run with `-name=foo` and no other flags. -/
def r3flags : RawFlags :=
  { nameVal := "foo", isNameSet := true, isDirSet := false, dirBase := ""
    onceVal := false, pubVal := false, addVal := "", isAddSet := false }

/-- C3 counterexample: the run with `-name=foo` in an empty directory
succeeds but creates 8 files, not 9, and creates no file `foo_consts.h`
(the public tier keeps the default prefix `pub`). -/
theorem c3_nine_files_counterexample :
    (runMain r3flags noFaults { fs := [], wc := 0 }).2 = none ∧
    (runMain r3flags noFaults { fs := [], wc := 0 }).1.fs.length = 8 ∧
    fsGet (runMain r3flags noFaults { fs := [], wc := 0 }).1.fs "foo_consts.h"
      = none := by
  decide

/-- C3 as amended: the run with `-name=foo` and no other flags in an empty
directory succeeds and creates exactly these 8 files in this order —
pub_consts.h, pub_types.h, pub_inlines.h, foo.h, priv_consts.h,
priv_types.h, priv_inlines.h, foo.c — with priv_consts.h including
`foo/pub_inlines.h` and foo.c consisting of the single line
`#include "foo/priv_inlines.h"`. -/
theorem c3_name_foo_run_amended :
    runMain r3flags noFaults { fs := [], wc := 0 } =
      ({ fs := [
        ("pub_consts.h",
          "#ifndef __FOO_PUB_CONSTS_H__\n#define __FOO_PUB_CONSTS_H__\n\n#endif //__FOO_PUB_CONSTS_H__\n"),
        ("pub_types.h",
          "#ifndef __FOO_PUB_TYPES_H__\n#define __FOO_PUB_TYPES_H__\n\n#include \"foo/pub_consts.h\"\n\n#endif //__FOO_PUB_TYPES_H__\n"),
        ("pub_inlines.h",
          "#ifndef __FOO_PUB_INLINES_H__\n#define __FOO_PUB_INLINES_H__\n\n#include \"foo/pub_types.h\"\n\n#endif //__FOO_PUB_INLINES_H__\n"),
        ("foo.h",
          "#ifndef __FOO_FOO_H__\n#define __FOO_FOO_H__\n\n#include \"foo/pub_inlines.h\"\n\n#endif //__FOO_FOO_H__\n"),
        ("priv_consts.h",
          "#ifndef __FOO_PRIV_CONSTS_H__\n#define __FOO_PRIV_CONSTS_H__\n\n#include \"foo/pub_inlines.h\"\n\n#endif //__FOO_PRIV_CONSTS_H__\n"),
        ("priv_types.h",
          "#ifndef __FOO_PRIV_TYPES_H__\n#define __FOO_PRIV_TYPES_H__\n\n#include \"foo/priv_consts.h\"\n\n#endif //__FOO_PRIV_TYPES_H__\n"),
        ("priv_inlines.h",
          "#ifndef __FOO_PRIV_INLINES_H__\n#define __FOO_PRIV_INLINES_H__\n\n#include \"foo/priv_types.h\"\n\n#endif //__FOO_PRIV_INLINES_H__\n"),
        ("foo.c", "#include \"foo/priv_inlines.h\"\n")], wc := 27 }, none) := by
  decide

/-- Raw flags of a run with only `-add=xxx`. -/
def r8flags : RawFlags :=
  { nameVal := "", isNameSet := false, isDirSet := false, dirBase := ""
    onceVal := false, pubVal := false, addVal := "xxx", isAddSet := true }

/-- C8: the run with `-add=xxx` and no module name succeeds and creates
exactly the five files xxx_consts.h, xxx_types.h, xxx_inlines.h, xxx.h,
xxx.c — xxx.h includes xxx_inlines.h and xxx.c includes xxx.h — and no
pub_*/priv_* file and no module export header or source exists afterwards. -/
theorem c8_add_xxx_run :
    runMain r8flags noFaults { fs := [], wc := 0 } =
      ({ fs := [
        ("xxx_consts.h",
          "#ifndef __XXX_CONSTS_H__\n#define __XXX_CONSTS_H__\n\n#endif //__XXX_CONSTS_H__\n"),
        ("xxx_types.h",
          "#ifndef __XXX_TYPES_H__\n#define __XXX_TYPES_H__\n\n#include \"xxx_consts.h\"\n\n#endif //__XXX_TYPES_H__\n"),
        ("xxx_inlines.h",
          "#ifndef __XXX_INLINES_H__\n#define __XXX_INLINES_H__\n\n#include \"xxx_types.h\"\n\n#endif //__XXX_INLINES_H__\n"),
        ("xxx.h",
          "#ifndef __XXX_H__\n#define __XXX_H__\n\n#include \"xxx_inlines.h\"\n\n#endif //__XXX_H__\n"),
        ("xxx.c", "#include \"xxx.h\"\n")], wc := 15 }, none) := by
  decide

/-- Character-list prefix test (strings.HasPrefix). -/
def hasPfx (p s : String) : Bool := p.data.isPrefixOf s.data

/-- Tier of a filename by its prefix: `pub`, `priv`, or none. -/
def tierOf (s : String) : Option String :=
  if hasPfx "pub_" s then some pPub
  else if hasPfx "priv_" s then some pPriv
  else none

/-- A chain file whose dependency list reaches into the other tier. -/
def crossTier (f : FileCall) : Bool :=
  match tierOf f.fname with
  | none => false
  | some t => f.incs.any (fun d =>
      match tierOf d with
      | none => false
      | some t2 => t2 != t)

/-- Configuration as it stands after checkFlags for a plain `-name=<nm>`
run: default prefix `pub`, no custom prefix, full flow. -/
def nameOnlyCfg (nm : String) : Config :=
  { name := nm, once := false, pub := false, pfx := pPub, isPfxSet := false }

/-- C5 counterexample: in the older variant's full flow the private consts
file's sole include is `pub_includes.h`, the public collector header — not
`pub_inlines.h` as the claim states for every variant of the
non-custom-prefix full flow. -/
theorem c5_bridge_counterexample :
    (mainPlanOld "foo").get? 4
      = some ⟨.inc, "priv_consts.h", ["pub_includes.h"]⟩ ∧
    (["pub_includes.h"] : List String) ≠ ["pub_inlines.h"] := by
  decide

/-- C5 as amended: in the newer variant's non-custom-prefix full flow the
private consts file is the only tier-chain file with a cross-tier
dependency and its sole include is `pub_inlines.h`; in the older variant it
is likewise the only such file but the bridge is `pub_includes.h` (the last
file of the public chain); in both variants every other chain file includes
exactly its immediate predecessor. -/
theorem c5_bridge_amended (nm : String) (h : nm.length > 0) :
    mainPlan (nameOnlyCfg nm) =
      [⟨.inc, "pub_consts.h", []⟩,
       ⟨.inc, "pub_types.h", ["pub_consts.h"]⟩,
       ⟨.inc, "pub_inlines.h", ["pub_types.h"]⟩,
       ⟨.inc, nm ++ ".h", ["pub_inlines.h"]⟩,
       ⟨.inc, "priv_consts.h", ["pub_inlines.h"]⟩,
       ⟨.inc, "priv_types.h", ["priv_consts.h"]⟩,
       ⟨.inc, "priv_inlines.h", ["priv_types.h"]⟩,
       ⟨.src, nm ++ ".c", ["priv_inlines.h"]⟩] ∧
    ([⟨.inc, "pub_consts.h", []⟩,
      ⟨.inc, "pub_types.h", ["pub_consts.h"]⟩,
      ⟨.inc, "pub_inlines.h", ["pub_types.h"]⟩,
      ⟨.inc, "priv_consts.h", ["pub_inlines.h"]⟩,
      ⟨.inc, "priv_types.h", ["priv_consts.h"]⟩,
      ⟨.inc, "priv_inlines.h", ["priv_types.h"]⟩] : List FileCall).filter
        crossTier = [⟨.inc, "priv_consts.h", ["pub_inlines.h"]⟩] ∧
    mainPlanOld nm =
      [⟨.inc, "pub_consts.h", []⟩,
       ⟨.inc, "pub_types.h", ["pub_consts.h"]⟩,
       ⟨.inc, "pub_inlines.h", ["pub_types.h"]⟩,
       ⟨.inc, "pub_includes.h", ["pub_inlines.h"]⟩,
       ⟨.inc, "priv_consts.h", ["pub_includes.h"]⟩,
       ⟨.inc, "priv_types.h", ["priv_consts.h"]⟩,
       ⟨.inc, "priv_inlines.h", ["priv_types.h"]⟩,
       ⟨.inc, "priv_includes.h", ["priv_inlines.h"]⟩,
       ⟨.inc, nm ++ ".h", ["pub_includes.h"]⟩,
       ⟨.src, nm ++ ".c", ["priv_includes.h"]⟩] ∧
    ([⟨.inc, "pub_consts.h", []⟩,
      ⟨.inc, "pub_types.h", ["pub_consts.h"]⟩,
      ⟨.inc, "pub_inlines.h", ["pub_types.h"]⟩,
      ⟨.inc, "pub_includes.h", ["pub_inlines.h"]⟩,
      ⟨.inc, "priv_consts.h", ["pub_includes.h"]⟩,
      ⟨.inc, "priv_types.h", ["priv_consts.h"]⟩,
      ⟨.inc, "priv_inlines.h", ["priv_types.h"]⟩,
      ⟨.inc, "priv_includes.h", ["priv_inlines.h"]⟩] : List FileCall).filter
        crossTier = [⟨.inc, "priv_consts.h", ["pub_includes.h"]⟩] := by
  have h0 : ¬nm.length = 0 := by omega
  refine ⟨?_, by decide, ?_, by decide⟩
  · unfold mainPlan createIncsPlan
    simp only [nameOnlyCfg, fName, sConsts, sTypes, sInlines, pPub, pPriv]
    rw [if_pos h, if_pos h]
    rfl
  · unfold mainPlanOld
    rw [if_neg h0]
    rfl

/-- Witness for the bridge theorem at the concrete module name `foo`. -/
theorem c5_bridge_amended_witness :
    ([⟨.inc, "pub_consts.h", []⟩,
      ⟨.inc, "pub_types.h", ["pub_consts.h"]⟩,
      ⟨.inc, "pub_inlines.h", ["pub_types.h"]⟩,
      ⟨.inc, "priv_consts.h", ["pub_inlines.h"]⟩,
      ⟨.inc, "priv_types.h", ["priv_consts.h"]⟩,
      ⟨.inc, "priv_inlines.h", ["priv_types.h"]⟩] : List FileCall).filter
        crossTier = [⟨.inc, "priv_consts.h", ["pub_inlines.h"]⟩] :=
  (c5_bridge_amended "foo" (by decide)).2.1

theorem fsGet_fsSet (fs : FS) (p v : String) :
    fsGet (fsSet fs p v) p = some v := by
  induction fs with
  | nil => simp [fsSet, fsGet]
  | cons hd fs ih =>
    obtain ⟨q, w⟩ := hd
    by_cases hq : q = p <;> simp [fsSet, fsGet, hq, ih]

theorem fsSet_fsSet (fs : FS) (p v w : String) :
    fsSet (fsSet fs p v) p w = fsSet fs p w := by
  induction fs with
  | nil => simp [fsSet]
  | cons hd fs ih =>
    obtain ⟨q, u⟩ := hd
    by_cases hq : q = p <;> simp [fsSet, hq, ih]

theorem fsAppend_fsSet (fs : FS) (p v s : String) :
    fsAppend (fsSet fs p v) p s = fsSet fs p (v ++ s) := by
  simp [fsAppend, fsGet_fsSet, fsSet_fsSet]

theorem fsRemove_fsSet (fs : FS) (p v : String)
    (h : fsGet fs p = none) : fsRemove (fsSet fs p v) p = fs := by
  induction fs with
  | nil => simp [fsSet, fsRemove]
  | cons hd fs ih =>
    obtain ⟨q, w⟩ := hd
    by_cases hq : q = p
    · rw [fsGet, if_pos hq] at h
      exact absurd h (by simp)
    · rw [fsGet, if_neg hq] at h
      simp [fsSet, fsRemove, hq, ih h]

deriving instance DecidableEq for Except

/-- Configuration of a bare run of the older variant (no module name). -/
def oldBareCfg : Config := nameOnlyCfg ""

/-- C1 counterexample: the older variant opens without O_EXCL, so with a
pre-existing `pub_consts.h` holding "old", createFile succeeds (no
already-exists error) and truncates the file, and the full createNamedInc
then overwrites the pre-existing content with freshly generated content. -/
theorem c1_exclusive_create_counterexample :
    createFile fileCreateOld [("pub_consts.h", "old")] "pub_consts.h"
      = .ok ([("pub_consts.h", "")], "pub_consts.h") ∧
    createNamedIncOld oldBareCfg noFaults "pub_consts.h" []
        { fs := [("pub_consts.h", "old")], wc := 0 } =
      ({ fs := [("pub_consts.h",
           "#ifndef __PUB_CONSTS_H__\n#define __PUB_CONSTS_H__\n\n#endif //__PUB_CONSTS_H__\n")],
         wc := 2 }, none) := by
  decide

/-- C1 as amended: the newer variant's file creation is exclusive — for any
pre-existing file at the resolved (lower-cased, absolute) target path,
createFile fails with alreadyExists, and createNamedInc/createNamedSrc
return that error with the file system, including the pre-existing
content, unchanged byte-for-byte.  The older variant (see the
counterexample) opens with O_CREATE|O_TRUNC and no O_EXCL and overwrites. -/
theorem c1_exclusive_create_amended (c : Config) (faults : Nat → Bool)
    (iname : String) (incs : List String) (st : WSt) (v : String)
    (h : fsGet st.fs (resolvePath iname) = some v) :
    createFile fileCreate st.fs iname = .error .alreadyExists ∧
    createNamedInc c faults iname incs st = (st, some .alreadyExists) ∧
    createNamedSrc c faults iname incs st = (st, some .alreadyExists) := by
  have hcf : createFile fileCreate st.fs iname = .error .alreadyExists := by
    rw [createFile, osOpenFile, h]
    rfl
  refine ⟨hcf, ?_, ?_⟩
  · rw [createNamedInc, hcf]
  · rw [createNamedSrc, hcf]

/-- Witness for the exclusive-creation theorem: a file `a.h` with content
"old" already exists, and createNamedInc reports alreadyExists leaving the
state unchanged. -/
theorem c1_exclusive_create_amended_witness :
    createNamedInc oldBareCfg noFaults "a.h" []
        { fs := [("a.h", "old")], wc := 0 } =
      ({ fs := [("a.h", "old")], wc := 0 }, some .alreadyExists) :=
  (c1_exclusive_create_amended oldBareCfg noFaults "a.h" []
    { fs := [("a.h", "old")], wc := 0 } "old" (by decide)).2.1

theorem strAppend_assoc (a b c : String) : a ++ b ++ c = a ++ (b ++ c) := by
  apply String.ext
  simp

theorem strJoin_cons (s : String) (l : List String) :
    String.join (s :: l) = s ++ String.join l := by
  apply String.ext
  simp

theorem writeStr_set (faults : Nat → Bool) (p s : String) (fs : FS)
    (st : WSt) (h : ∃ v, st.fs = fsSet fs p v) :
    ∃ v', (writeStr faults p s st).1.fs = fsSet fs p v' := by
  obtain ⟨v, hv⟩ := h
  by_cases hf : faults st.wc
  · exact ⟨v, by simp [writeStr, hf, hv]⟩
  · exact ⟨v ++ s, by simp [writeStr, hf, hv, fsAppend_fsSet]⟩


theorem bindE_set (fs : FS) (p : String) (r : WSt × Option FErr)
    (f : WSt → WSt × Option FErr)
    (hr : ∃ v, r.1.fs = fsSet fs p v)
    (hf : ∀ st, (∃ v, st.fs = fsSet fs p v) →
      ∃ v', (f st).1.fs = fsSet fs p v') :
    ∃ v', (bindE r f).1.fs = fsSet fs p v' := by
  rcases r with ⟨st, e⟩
  cases e with
  | none => exact hf st hr
  | some e => exact hr

theorem condWrite_set (faults : Nat → Bool) (p s : String) (fs : FS)
    (cond : Prop) [Decidable cond] (st : WSt)
    (h : ∃ v, st.fs = fsSet fs p v) :
    ∃ v', (if cond then writeStr faults p s st else (st, none)).1.fs
      = fsSet fs p v' := by
  by_cases hc : cond
  · rw [if_pos hc]
    exact writeStr_set faults p s fs st h
  · rw [if_neg hc]
    exact h

theorem writeHeader_set (c : Config) (faults : Nat → Bool) (p iname : String)
    (fs : FS) (st : WSt) (h : ∃ v, st.fs = fsSet fs p v) :
    ∃ v', (writeHeader c faults p iname st).1.fs = fsSet fs p v' := by
  rw [writeHeader]
  exact bindE_set fs p _ _
    (condWrite_set faults p "#pragma once\n\n" fs _ st h)
    (fun st1 h1 => writeStr_set faults p
      ("#ifndef " ++ defNameStr c.name iname ++ "\n#define "
        ++ defNameStr c.name iname ++ "\n\n") fs st1 h1)

theorem writeHeaderOld_set (c : Config) (faults : Nat → Bool)
    (p iname : String) (fs : FS) (st : WSt)
    (h : ∃ v, st.fs = fsSet fs p v) :
    ∃ v', (writeHeaderOld c faults p iname st).1.fs = fsSet fs p v' := by
  rw [writeHeaderOld]
  exact bindE_set fs p _ _
    (condWrite_set faults p "#pragma once\n\n" fs _ st h)
    (fun st1 h1 => writeStr_set faults p
      ("#ifndef " ++ defNameStrOld c.name iname ++ "\n#define "
        ++ defNameStrOld c.name iname ++ "\n\n") fs st1 h1)

theorem writeIncs_set (c : Config) (faults : Nat → Bool) (p : String)
    (fs : FS) : ∀ (incs : List String) (st : WSt),
    (∃ v, st.fs = fsSet fs p v) →
    ∃ v', (writeIncs c faults p incs st).1.fs = fsSet fs p v' := by
  intro incs
  induction incs with
  | nil => intro st h; exact h
  | cons i rest ih =>
    intro st h
    rw [writeIncs]
    rcases hr : writeInclude c faults p i st with ⟨st1, e1⟩
    have h1 : ∃ v, st1.fs = fsSet fs p v := by
      have hw := writeStr_set faults p
        ("#include \"" ++ includeNameStr c.name i ++ "\"\n") fs st h
      rw [writeInclude] at hr
      rw [hr] at hw
      exact hw
    cases e1 with
    | none => exact ih st1 h1
    | some e => exact h1

theorem incBody_set (c : Config) (faults : Nat → Bool) (p iname : String)
    (incs : List String) (fs : FS) (st : WSt)
    (h : ∃ v, st.fs = fsSet fs p v) :
    ∃ v', (incBody c faults p iname incs st).1.fs = fsSet fs p v' := by
  rw [incBody]
  exact bindE_set fs p _ _ (writeHeader_set c faults p iname fs st h)
    (fun st1 h1 => bindE_set fs p _ _
      (writeIncs_set c faults p fs incs st1 h1)
      (fun st2 h2 => bindE_set fs p _ _
        (condWrite_set faults p "\n" fs _ st2 h2)
        (fun st3 h3 => writeStr_set faults p
          ("#endif //" ++ defNameStr c.name iname ++ "\n") fs st3 h3)))

theorem incBodyOld_set (c : Config) (faults : Nat → Bool) (p iname : String)
    (incs : List String) (fs : FS) (st : WSt)
    (h : ∃ v, st.fs = fsSet fs p v) :
    ∃ v', (incBodyOld c faults p iname incs st).1.fs = fsSet fs p v' := by
  rw [incBodyOld]
  exact bindE_set fs p _ _ (writeHeaderOld_set c faults p iname fs st h)
    (fun st1 h1 => bindE_set fs p _ _
      (writeIncs_set c faults p fs incs st1 h1)
      (fun st2 h2 => bindE_set fs p _ _
        (condWrite_set faults p "\n" fs _ st2 h2)
        (fun st3 h3 => writeStr_set faults p
          ("#endif //" ++ defNameStrOld c.name iname ++ "\n") fs st3 h3)))

theorem createNamedInc_ok (c : Config) (faults : Nat → Bool) (iname : String)
    (incs : List String) (st : WSt) (fs1 : FS) (fn : String)
    (h : createFile fileCreate st.fs iname = .ok (fs1, fn)) :
    createNamedInc c faults iname incs st = withCleanup fn
      (incBody c faults fn iname incs { fs := fs1, wc := st.wc }) := by
  rw [createNamedInc, h]

theorem createNamedSrc_ok (c : Config) (faults : Nat → Bool) (sname : String)
    (incs : List String) (st : WSt) (fs1 : FS) (fn : String)
    (h : createFile fileCreate st.fs sname = .ok (fs1, fn)) :
    createNamedSrc c faults sname incs st = withCleanup fn
      (writeIncs c faults fn incs { fs := fs1, wc := st.wc }) := by
  rw [createNamedSrc, h]

theorem createNamedIncOld_ok (c : Config) (faults : Nat → Bool)
    (iname : String) (incs : List String) (st : WSt) (fs1 : FS) (fn : String)
    (h : createFile fileCreateOld st.fs iname = .ok (fs1, fn)) :
    createNamedIncOld c faults iname incs st = withCleanup fn
      (incBodyOld c faults fn iname incs { fs := fs1, wc := st.wc }) := by
  rw [createNamedIncOld, h]

theorem createNamedSrcOld_ok (c : Config) (faults : Nat → Bool)
    (sname : String) (incs : List String) (st : WSt) (fs1 : FS) (fn : String)
    (h : createFile fileCreateOld st.fs sname = .ok (fs1, fn)) :
    createNamedSrcOld c faults sname incs st = withCleanup fn
      (writeIncs c faults fn incs { fs := fs1, wc := st.wc }) := by
  rw [createNamedSrcOld, h]

/-- C2: for every include or source file generated (in either variant), if
creation succeeded on a free target path and any later write failed — the
run returns an error — then the partially written file has been deleted:
no file remains at the target path. -/
theorem c2_cleanup_on_write_failure (c : Config) (faults : Nat → Bool)
    (iname : String) (incs : List String) (st : WSt)
    (hfree : fsGet st.fs (resolvePath iname) = none) :
    ((createNamedInc c faults iname incs st).2.isSome = true →
      fsGet (createNamedInc c faults iname incs st).1.fs
        (resolvePath iname) = none) ∧
    ((createNamedSrc c faults iname incs st).2.isSome = true →
      fsGet (createNamedSrc c faults iname incs st).1.fs
        (resolvePath iname) = none) ∧
    ((createNamedIncOld c faults iname incs st).2.isSome = true →
      fsGet (createNamedIncOld c faults iname incs st).1.fs
        (resolvePath iname) = none) ∧
    ((createNamedSrcOld c faults iname incs st).2.isSome = true →
      fsGet (createNamedSrcOld c faults iname incs st).1.fs
        (resolvePath iname) = none) := by
  have hcf : createFile fileCreate st.fs iname
      = .ok (fsSet st.fs (resolvePath iname) "", resolvePath iname) := by
    rw [createFile, osOpenFile, hfree]
    rfl
  have hcfo : createFile fileCreateOld st.fs iname
      = .ok (fsSet st.fs (resolvePath iname) "", resolvePath iname) := by
    rw [createFile, osOpenFile, hfree]
    rfl
  refine ⟨?_, ?_, ?_, ?_⟩
  · rw [createNamedInc_ok c faults iname incs st _ _ hcf]
    rcases hb : incBody c faults (resolvePath iname) iname incs
        { fs := fsSet st.fs (resolvePath iname) "", wc := st.wc }
      with ⟨st2, e2⟩
    cases e2 with
    | none => simp [withCleanup]
    | some e =>
      intro _
      have hv : ∃ v', st2.fs = fsSet st.fs (resolvePath iname) v' := by
        have hw := incBody_set c faults (resolvePath iname) iname incs st.fs
          { fs := fsSet st.fs (resolvePath iname) "", wc := st.wc } ⟨"", rfl⟩
        rw [hb] at hw
        exact hw
      obtain ⟨v', hv'⟩ := hv
      show fsGet (fsRemove st2.fs (resolvePath iname)) (resolvePath iname)
        = none
      rw [hv', fsRemove_fsSet st.fs (resolvePath iname) v' hfree]
      exact hfree
  · rw [createNamedSrc_ok c faults iname incs st _ _ hcf]
    rcases hb : writeIncs c faults (resolvePath iname) incs
        { fs := fsSet st.fs (resolvePath iname) "", wc := st.wc }
      with ⟨st2, e2⟩
    cases e2 with
    | none => simp [withCleanup]
    | some e =>
      intro _
      have hv : ∃ v', st2.fs = fsSet st.fs (resolvePath iname) v' := by
        have hw := writeIncs_set c faults (resolvePath iname) st.fs incs
          { fs := fsSet st.fs (resolvePath iname) "", wc := st.wc } ⟨"", rfl⟩
        rw [hb] at hw
        exact hw
      obtain ⟨v', hv'⟩ := hv
      show fsGet (fsRemove st2.fs (resolvePath iname)) (resolvePath iname)
        = none
      rw [hv', fsRemove_fsSet st.fs (resolvePath iname) v' hfree]
      exact hfree
  · rw [createNamedIncOld_ok c faults iname incs st _ _ hcfo]
    rcases hb : incBodyOld c faults (resolvePath iname) iname incs
        { fs := fsSet st.fs (resolvePath iname) "", wc := st.wc }
      with ⟨st2, e2⟩
    cases e2 with
    | none => simp [withCleanup]
    | some e =>
      intro _
      have hv : ∃ v', st2.fs = fsSet st.fs (resolvePath iname) v' := by
        have hw := incBodyOld_set c faults (resolvePath iname) iname incs st.fs
          { fs := fsSet st.fs (resolvePath iname) "", wc := st.wc } ⟨"", rfl⟩
        rw [hb] at hw
        exact hw
      obtain ⟨v', hv'⟩ := hv
      show fsGet (fsRemove st2.fs (resolvePath iname)) (resolvePath iname)
        = none
      rw [hv', fsRemove_fsSet st.fs (resolvePath iname) v' hfree]
      exact hfree
  · rw [createNamedSrcOld_ok c faults iname incs st _ _ hcfo]
    rcases hb : writeIncs c faults (resolvePath iname) incs
        { fs := fsSet st.fs (resolvePath iname) "", wc := st.wc }
      with ⟨st2, e2⟩
    cases e2 with
    | none => simp [withCleanup]
    | some e =>
      intro _
      have hv : ∃ v', st2.fs = fsSet st.fs (resolvePath iname) v' := by
        have hw := writeIncs_set c faults (resolvePath iname) st.fs incs
          { fs := fsSet st.fs (resolvePath iname) "", wc := st.wc } ⟨"", rfl⟩
        rw [hb] at hw
        exact hw
      obtain ⟨v', hv'⟩ := hv
      show fsGet (fsRemove st2.fs (resolvePath iname)) (resolvePath iname)
        = none
      rw [hv', fsRemove_fsSet st.fs (resolvePath iname) v' hfree]
      exact hfree

/-- All writes fail: the first write after creation errors out. -/
def allFaults : Nat → Bool := fun _ => true

/-- Witness for the cleanup theorem: target `a.h` free, first write fails,
and afterwards no file is present at the target path. -/
theorem c2_cleanup_on_write_failure_witness :
    fsGet (createNamedInc oldBareCfg allFaults "a.h" ["b.h"]
      { fs := [], wc := 0 }).1.fs (resolvePath "a.h") = none :=
  (c2_cleanup_on_write_failure oldBareCfg allFaults "a.h" ["b.h"]
    { fs := [], wc := 0 } (by decide)).1 (by decide)

theorem bindE_ok (st : WSt) (f : WSt → WSt × Option FErr) :
    bindE (st, none) f = f st := rfl

theorem writeStr_noFaults (p s : String) (fs : FS) (v : String) (n : Nat) :
    writeStr noFaults p s { fs := fsSet fs p v, wc := n } =
      ({ fs := fsSet fs p (v ++ s), wc := n + 1 }, none) := by
  simp [writeStr, noFaults, fsAppend_fsSet]

theorem writeHeader_noFaults (c : Config) (p iname : String) (fs : FS)
    (v : String) (n : Nat) :
    ∃ n', writeHeader c noFaults p iname { fs := fsSet fs p v, wc := n } =
      ({ fs := fsSet fs p (v ++ ((if c.once then "#pragma once\n\n" else "")
        ++ ("#ifndef " ++ defNameStr c.name iname ++ "\n#define "
          ++ defNameStr c.name iname ++ "\n\n"))), wc := n' }, none) := by
  by_cases ho : c.once
  · refine ⟨n + 2, ?_⟩
    simp only [writeHeader, if_pos ho, writeStr_noFaults, bindE_ok]
    have hs : v ++ "#pragma once\n\n"
        ++ ("#ifndef " ++ defNameStr c.name iname ++ "\n#define "
          ++ defNameStr c.name iname ++ "\n\n")
        = v ++ ("#pragma once\n\n"
        ++ ("#ifndef " ++ defNameStr c.name iname ++ "\n#define "
          ++ defNameStr c.name iname ++ "\n\n")) := strAppend_assoc _ _ _
    rw [hs]
  · refine ⟨n + 1, ?_⟩
    simp only [writeHeader, if_neg ho, bindE_ok, writeStr_noFaults]
    have hs : v ++ ("#ifndef " ++ defNameStr c.name iname ++ "\n#define "
          ++ defNameStr c.name iname ++ "\n\n")
        = v ++ (("" : String)
        ++ ("#ifndef " ++ defNameStr c.name iname ++ "\n#define "
          ++ defNameStr c.name iname ++ "\n\n")) := by
      apply String.ext
      simp
    rw [← hs]

theorem writeHeaderOld_noFaults (c : Config) (p iname : String) (fs : FS)
    (v : String) (n : Nat) :
    ∃ n', writeHeaderOld c noFaults p iname { fs := fsSet fs p v, wc := n } =
      ({ fs := fsSet fs p (v ++ ((if c.once then "#pragma once\n\n" else "")
        ++ ("#ifndef " ++ defNameStrOld c.name iname ++ "\n#define "
          ++ defNameStrOld c.name iname ++ "\n\n"))), wc := n' }, none) := by
  by_cases ho : c.once
  · refine ⟨n + 2, ?_⟩
    simp only [writeHeaderOld, if_pos ho, writeStr_noFaults, bindE_ok]
    have hs : v ++ "#pragma once\n\n"
        ++ ("#ifndef " ++ defNameStrOld c.name iname ++ "\n#define "
          ++ defNameStrOld c.name iname ++ "\n\n")
        = v ++ ("#pragma once\n\n"
        ++ ("#ifndef " ++ defNameStrOld c.name iname ++ "\n#define "
          ++ defNameStrOld c.name iname ++ "\n\n")) := strAppend_assoc _ _ _
    rw [hs]
  · refine ⟨n + 1, ?_⟩
    simp only [writeHeaderOld, if_neg ho, bindE_ok, writeStr_noFaults]
    have hs : v ++ ("#ifndef " ++ defNameStrOld c.name iname ++ "\n#define "
          ++ defNameStrOld c.name iname ++ "\n\n")
        = v ++ (("" : String)
        ++ ("#ifndef " ++ defNameStrOld c.name iname ++ "\n#define "
          ++ defNameStrOld c.name iname ++ "\n\n")) := by
      apply String.ext
      simp
    rw [← hs]

theorem writeIncs_noFaults (c : Config) (p : String) (incs : List String)
    (fs : FS) : ∀ (v : String) (n : Nat),
    ∃ n', writeIncs c noFaults p incs { fs := fsSet fs p v, wc := n } =
      ({ fs := fsSet fs p (v ++ String.join (incs.map (fun d =>
           "#include \"" ++ includeNameStr c.name d ++ "\"\n"))),
         wc := n' }, none) := by
  induction incs with
  | nil =>
    intro v n
    refine ⟨n, ?_⟩
    have hv : v ++ String.join (([] : List String).map (fun d =>
        "#include \"" ++ includeNameStr c.name d ++ "\"\n")) = v := by
      apply String.ext
      simp
    rw [writeIncs, hv]
  | cons i rest ih =>
    intro v n
    obtain ⟨n', hn'⟩ := ih
      (v ++ ("#include \"" ++ includeNameStr c.name i ++ "\"\n")) (n + 1)
    refine ⟨n', ?_⟩
    have hrw : v ++ String.join ((i :: rest).map (fun d =>
        "#include \"" ++ includeNameStr c.name d ++ "\"\n"))
        = (v ++ ("#include \"" ++ includeNameStr c.name i ++ "\"\n"))
          ++ String.join (rest.map (fun d =>
            "#include \"" ++ includeNameStr c.name d ++ "\"\n")) := by
      apply String.ext
      simp
    rw [writeIncs, writeInclude, writeStr_noFaults, hrw]
    exact hn'

theorem strEmpty_append (s : String) : "" ++ s = s := by
  apply String.ext
  simp

theorem incBody_noFaults (c : Config) (p iname : String) (incs : List String)
    (fs : FS) (v : String) (n : Nat) :
    ∃ n', incBody c noFaults p iname incs { fs := fsSet fs p v, wc := n } =
      ({ fs := fsSet fs p (v ++ ((if c.once then "#pragma once\n\n" else "")
           ++ ("#ifndef " ++ defNameStr c.name iname ++ "\n#define "
             ++ defNameStr c.name iname ++ "\n\n")
           ++ String.join (incs.map (fun d =>
             "#include \"" ++ includeNameStr c.name d ++ "\"\n"))
           ++ (if incs = [] then "" else "\n")
           ++ ("#endif //" ++ defNameStr c.name iname ++ "\n"))),
         wc := n' }, none) := by
  obtain ⟨n1, h1⟩ := writeHeader_noFaults c p iname fs v n
  obtain ⟨n2, h2⟩ := writeIncs_noFaults c p incs fs
    (v ++ ((if c.once then "#pragma once\n\n" else "")
      ++ ("#ifndef " ++ defNameStr c.name iname ++ "\n#define "
        ++ defNameStr c.name iname ++ "\n\n"))) n1
  by_cases hl : incs = []
  · refine ⟨n2 + 1, ?_⟩
    subst hl
    rw [incBody, h1, bindE_ok, h2, bindE_ok, if_neg (by decide), bindE_ok,
      writeFooter, writeStr_noFaults]
    congr 3
    apply String.ext
    simp
  · have hpos : incs.length > 0 := List.length_pos.mpr hl
    refine ⟨n2 + 1 + 1, ?_⟩
    rw [incBody, h1, bindE_ok, h2, bindE_ok, if_pos hpos, writeStr_noFaults,
      bindE_ok, writeFooter, writeStr_noFaults, if_neg hl]
    congr 3
    apply String.ext
    simp

/-- C7: for every include file generated over a free target path with
dependency list D, the run succeeds and the file content is, in order: the
optional `#pragma once` line plus blank line when once-guard mode is
active, the `#ifndef`/`#define` guard lines, a blank line, one
`#include "<dep>"` line per element of D in order (with the
module-qualified include path), a trailing blank line exactly when D is
non-empty, and finally the `#endif //GUARD` line. -/
theorem c7_include_file_layout (c : Config) (iname : String)
    (incs : List String) (st : WSt)
    (hfree : fsGet st.fs (resolvePath iname) = none) :
    (createNamedInc c noFaults iname incs st).2 = none ∧
    fsGet (createNamedInc c noFaults iname incs st).1.fs (resolvePath iname)
      = some ((if c.once then "#pragma once\n\n" else "")
        ++ ("#ifndef " ++ defNameStr c.name iname ++ "\n#define "
          ++ defNameStr c.name iname ++ "\n\n")
        ++ String.join (incs.map (fun d =>
          "#include \"" ++ includeNameStr c.name d ++ "\"\n"))
        ++ (if incs = [] then "" else "\n")
        ++ ("#endif //" ++ defNameStr c.name iname ++ "\n")) := by
  have hcf : createFile fileCreate st.fs iname
      = .ok (fsSet st.fs (resolvePath iname) "", resolvePath iname) := by
    rw [createFile, osOpenFile, hfree]
    rfl
  obtain ⟨n', hb⟩ := incBody_noFaults c (resolvePath iname) iname incs
    st.fs "" st.wc
  rw [strEmpty_append] at hb
  rw [createNamedInc_ok c noFaults iname incs st _ _ hcf, hb]
  exact ⟨rfl, fsGet_fsSet st.fs (resolvePath iname) _⟩

/-- Configuration with once-guard mode on and module name `m`. -/
def onceCfg : Config :=
  { name := "m", once := true, pub := false, pfx := "pub", isPfxSet := false }

/-- Witness for the include layout theorem at a concrete run: module `m`,
once mode, file `a.h` with one dependency `b.h`. -/
theorem c7_include_file_layout_witness :
    fsGet (createNamedInc onceCfg noFaults "a.h" ["b.h"]
      { fs := [], wc := 0 }).1.fs (resolvePath "a.h")
      = some "#pragma once\n\n#ifndef __M_A_H__\n#define __M_A_H__\n\n#include \"m/b.h\"\n\n#endif //__M_A_H__\n" :=
  (c7_include_file_layout onceCfg "a.h" ["b.h"] { fs := [], wc := 0 }
    (by decide)).2

theorem writeIncs_once_irrel (c : Config) (b : Bool) (faults : Nat → Bool)
    (p : String) : ∀ (incs : List String) (st : WSt),
    writeIncs { c with once := b } faults p incs st
      = writeIncs c faults p incs st := by
  intro incs
  induction incs with
  | nil => intro st; rfl
  | cons i rest ih =>
    intro st
    rw [writeIncs, writeIncs]
    have hwi : writeInclude { c with once := b } faults p i st
        = writeInclude c faults p i st := rfl
    rw [hwi]
    rcases hr : writeInclude c faults p i st with ⟨st1, e1⟩
    cases e1 with
    | none => exact ih st1
    | some e => rfl

theorem createNamedSrc_once_irrel (c : Config) (b : Bool)
    (faults : Nat → Bool) (sname : String) (incs : List String) (st : WSt) :
    createNamedSrc { c with once := b } faults sname incs st
      = createNamedSrc c faults sname incs st := by
  rcases hcf : createFile fileCreate st.fs sname with e | ⟨fs1, fn⟩
  · rw [createNamedSrc, createNamedSrc, hcf]
  · rw [createNamedSrc_ok { c with once := b } faults sname incs st fs1 fn hcf,
      createNamedSrc_ok c faults sname incs st fs1 fn hcf,
      writeIncs_once_irrel]

/-- C10: for every run over a free target path, the generated source file's
content consists solely of one `#include "<dep>"` line per dependency, in
order — no include guard lines ever — and the once flag has no effect on
the result; the same holds for the older variant's createNamedSrc. -/
theorem c10_source_file_content (c : Config) (sname : String)
    (incs : List String) (st : WSt)
    (hfree : fsGet st.fs (resolvePath sname) = none) :
    (createNamedSrc c noFaults sname incs st).2 = none ∧
    fsGet (createNamedSrc c noFaults sname incs st).1.fs (resolvePath sname)
      = some (String.join (incs.map (fun d =>
        "#include \"" ++ includeNameStr c.name d ++ "\"\n"))) ∧
    (∀ b : Bool, createNamedSrc { c with once := b } noFaults sname incs st
      = createNamedSrc c noFaults sname incs st) ∧
    (createNamedSrcOld c noFaults sname incs st).2 = none ∧
    fsGet (createNamedSrcOld c noFaults sname incs st).1.fs
        (resolvePath sname)
      = some (String.join (incs.map (fun d =>
        "#include \"" ++ includeNameStr c.name d ++ "\"\n"))) := by
  have hcf : createFile fileCreate st.fs sname
      = .ok (fsSet st.fs (resolvePath sname) "", resolvePath sname) := by
    rw [createFile, osOpenFile, hfree]
    rfl
  have hcfo : createFile fileCreateOld st.fs sname
      = .ok (fsSet st.fs (resolvePath sname) "", resolvePath sname) := by
    rw [createFile, osOpenFile, hfree]
    rfl
  obtain ⟨n', hw⟩ := writeIncs_noFaults c (resolvePath sname) incs
    st.fs "" st.wc
  rw [strEmpty_append] at hw
  refine ⟨?_, ?_, ?_, ?_, ?_⟩
  · rw [createNamedSrc_ok c noFaults sname incs st _ _ hcf, hw]
    rfl
  · rw [createNamedSrc_ok c noFaults sname incs st _ _ hcf, hw]
    exact fsGet_fsSet st.fs (resolvePath sname) _
  · intro b
    exact createNamedSrc_once_irrel c b noFaults sname incs st
  · rw [createNamedSrcOld_ok c noFaults sname incs st _ _ hcfo, hw]
    rfl
  · rw [createNamedSrcOld_ok c noFaults sname incs st _ _ hcfo, hw]
    exact fsGet_fsSet st.fs (resolvePath sname) _

/-- Witness for the source-content theorem at a concrete run: module `m`,
once mode on (and provably irrelevant), file `s.c` depending on `b.h`. -/
theorem c10_source_file_content_witness :
    fsGet (createNamedSrc onceCfg noFaults "s.c" ["b.h"]
      { fs := [], wc := 0 }).1.fs (resolvePath "s.c")
      = some "#include \"m/b.h\"\n" :=
  (c10_source_file_content onceCfg "s.c" ["b.h"] { fs := [], wc := 0 }
    (by decide)).2.1

theorem includeNameBytes_qualified (nm f : String) (h : nm.length > 0) :
    includeNameBytes (strBytes nm) (strBytes f) = strBytes (nm ++ "/" ++ f) := by
  have hne : strBytes nm ≠ [] := by
    rw [strBytes]
    intro hc
    rw [List.map_eq_nil_iff] at hc
    rw [String.length] at h
    simp [hc] at h
  rw [includeNameBytes, if_neg hne]
  simp [strBytes]

/-- Raw flags of a run with both `-name=<nm>` and `-add=<pfxv>`. -/
def addWithNameFlags (nm pfxv : String) : RawFlags :=
  { nameVal := nm, isNameSet := true, isDirSet := false, dirBase := ""
    onceVal := false, pubVal := false, addVal := pfxv, isAddSet := true }

/-- Raw flags of a run with `-dir` (directory base `base`) and `-add`. -/
def addWithDirFlags (base pfxv : String) : RawFlags :=
  { nameVal := "", isNameSet := false, isDirSet := true, dirBase := base
    onceVal := false, pubVal := false, addVal := pfxv, isAddSet := true }

/-- Raw flags of a run with both `-name` and `-dir`. -/
def nameDirFlags (nm : String) : RawFlags :=
  { nameVal := nm, isNameSet := true, isDirSet := true, dirBase := ""
    onceVal := false, pubVal := false, addVal := "", isAddSet := false }

/-- Configuration resolved for `-add=<pfxv>` with module name `<nm>`. -/
def addNameCfg (nm pfxv : String) : Config :=
  { name := nm, once := false, pub := false, pfx := pfxv, isPfxSet := true }

/-- C9: combining `-add` with `-name` (or `-dir`) is accepted — only
`-name` and `-dir` together are rejected as incompatible — and in that
combination the plan is exactly the single custom-prefix chain plus its
export header and source (the pub/priv pyramid and the module export
header/source are skipped), every `#include` directive is qualified with
the module name, and every guard token is derived from the qualified
include path; a concrete run with `-name=foo -add=xxx` shows the resulting
files. -/
theorem c9_add_with_name (nm pfxv : String) (hn : nm.length > 0)
    (hp : pfxv.length > 0) :
    checkFlags (addWithNameFlags nm pfxv) = .ok (addNameCfg nm pfxv) ∧
    checkFlags (addWithDirFlags nm pfxv) = .ok (addNameCfg nm pfxv) ∧
    checkFlags (nameDirFlags nm) = .error .incompatibleFlags ∧
    mainPlan (addNameCfg nm pfxv) =
      [⟨.inc, pfxv ++ "_consts.h", []⟩,
       ⟨.inc, pfxv ++ "_types.h", [pfxv ++ "_consts.h"]⟩,
       ⟨.inc, pfxv ++ "_inlines.h", [pfxv ++ "_types.h"]⟩,
       ⟨.inc, pfxv ++ ".h", [pfxv ++ "_inlines.h"]⟩,
       ⟨.src, pfxv ++ ".c", [pfxv ++ ".h"]⟩] ∧
    (∀ d : String, includeNameStr nm d = nm ++ "/" ++ d) ∧
    (∀ f : String, defNameStr nm f
      = strOfBytes (defLoopNew [95, 95] (strBytes (nm ++ "/" ++ f))
        ++ [95, 95])) ∧
    runMain (addWithNameFlags "foo" "xxx") noFaults { fs := [], wc := 0 }
      = ({ fs := [
          ("xxx_consts.h",
            "#ifndef __FOO_XXX_CONSTS_H__\n#define __FOO_XXX_CONSTS_H__\n\n#endif //__FOO_XXX_CONSTS_H__\n"),
          ("xxx_types.h",
            "#ifndef __FOO_XXX_TYPES_H__\n#define __FOO_XXX_TYPES_H__\n\n#include \"foo/xxx_consts.h\"\n\n#endif //__FOO_XXX_TYPES_H__\n"),
          ("xxx_inlines.h",
            "#ifndef __FOO_XXX_INLINES_H__\n#define __FOO_XXX_INLINES_H__\n\n#include \"foo/xxx_types.h\"\n\n#endif //__FOO_XXX_INLINES_H__\n"),
          ("xxx.h",
            "#ifndef __FOO_XXX_H__\n#define __FOO_XXX_H__\n\n#include \"foo/xxx_inlines.h\"\n\n#endif //__FOO_XXX_H__\n"),
          ("xxx.c", "#include \"foo/xxx.h\"\n")], wc := 15 }, none) := by
  have hp0 : (pfxv.length == 0) = false := by
    simp
    omega
  refine ⟨?_, ?_, ?_, ?_, ?_, ?_, by decide⟩
  · simp [checkFlags, addWithNameFlags, addNameCfg, hp0]
  · simp [checkFlags, addWithDirFlags, addNameCfg, hp0]
  · simp [checkFlags, nameDirFlags]
  · simp [mainPlan, createIncsPlan, addNameCfg, fName, sConsts, sTypes,
      sInlines]
  · intro d
    rw [includeNameStr, if_neg (by omega)]
  · intro f
    rw [defNameStr, defNameBytes, includeNameBytes_qualified nm f hn]

/-- Witness for the add-with-name theorem at `-name=foo -add=xxx`. -/
theorem c9_add_with_name_witness :
    checkFlags (addWithNameFlags "foo" "xxx") = .ok (addNameCfg "foo" "xxx") :=
  (c9_add_with_name "foo" "xxx" (by decide) (by decide)).1
